import Mathlib

/-
  Verification development for the dotlore retrieval and persistence core.

  The Lean definitions below are a shallow embedding of the Python modules
  `dotlore/core/config.py` and `dotlore/core/db.py`.  YAML / Python values
  are modelled by the inductive `Yaml`; Python dictionaries are association
  lists with first-occurrence lookup and replace-first update, which agrees
  with Python dict semantics on every state reachable by the modelled
  operations.  Fallible Python code (statements that can raise `TypeError`
  or `AttributeError`) is modelled with `Except PyErr`.  File persistence is
  modelled by passing the loaded document explicitly: `load_config()`
  returning `None` (no file) corresponds to the argument `none`.
-/

set_option autoImplicit false

namespace DotLore

/-- Python exception kinds that the embedded code can raise. -/
inductive PyErr where
  | typeError
  | attributeError
  deriving DecidableEq

/-- YAML / Python values as stored in the configuration document.
(Float scalars do not occur in the default document and no claim computes
with them, so they are not included.) -/
inductive Yaml where
  | null
  | bool (b : Bool)
  | int (n : Int)
  | str (s : String)
  | list (xs : List Yaml)
  | map (kvs : List (String × Yaml))

/-- First-occurrence lookup in an association list (Python `d[k]` / `k in d`). -/
def assocLookup : List (String × Yaml) → String → Option Yaml
  | [], _ => none
  | (k', v) :: rest, k => if k' = k then some v else assocLookup rest k

/-- Replace-first update, appending when the key is absent (Python `d[k] = v`). -/
def assocSet : List (String × Yaml) → String → Yaml → List (String × Yaml)
  | [], k, v => [(k, v)]
  | (k', v') :: rest, k, v =>
      if k' = k then (k, v) :: rest else (k', v') :: assocSet rest k v

/-- Python truthiness (`if not config`, `if not key`). -/
def pyTruthy : Yaml → Bool
  | .null => false
  | .bool b => b
  | .int n => n != 0
  | .str s => s ≠ ""
  | .list xs => !xs.isEmpty
  | .map kvs => !kvs.isEmpty

/-- Substring test: Python `p in s` for strings (true for the empty `p`). -/
def substrB (p s : String) : Bool :=
  (List.range (s.toList.length + 1)).any fun i => p.toList.isPrefixOf (s.toList.drop i)

/-- Python `p in xs` for a string `p` and a list `xs`: equality with some element
(a string element equal to `p`; `p` never equals a non-string element). -/
def listContainsStr (xs : List Yaml) (p : String) : Bool :=
  xs.any fun x => match x with | .str s => s = p | _ => false

/-- Helper for `pySplitDot`: accumulate the current field (reversed). -/
def splitDotAux : List Char → List Char → List String
  | [], acc => [String.mk acc.reverse]
  | c :: cs, acc =>
      if c = '.' then String.mk acc.reverse :: splitDotAux cs []
      else splitDotAux cs (c :: acc)

/-- Python `key.split('.')`: every separator splits, empty fields are kept,
and the empty string yields `[""]`. -/
def pySplitDot (s : String) : List String :=
  splitDotAux s.toList []

/-- The loop body of `get_config_value` in `config.py`:
`for part in parts: if part in value: value = value[part] else: return None`.
On a non-mapping intermediate, Python either returns `None` (membership test
fails on a string or list) or raises `TypeError` (membership on an int, bool
or `None`, or indexing a string or list by a string key). -/
def walkParts : List String → Yaml → Except PyErr (Option Yaml)
  | [], v => .ok (some v)
  | p :: ps, v =>
      match v with
      | .map kvs =>
          match assocLookup kvs p with
          | some v' => walkParts ps v'
          | none => .ok none
      | .str s => if substrB p s then .error .typeError else .ok none
      | .list xs => if listContainsStr xs p then .error .typeError else .ok none
      | _ => .error .typeError

/-- Embedding of `get_config_value(key=None)` from `config.py`.  The first
argument is the result of `load_config()` (`none` = no config file).  Python
treats a falsy loaded document and a falsy key (`None` or `""`) specially. -/
def get_config_value (store : Option Yaml) (key : Option String) : Except PyErr (Option Yaml) :=
  match store with
  | none => .ok none
  | some c =>
      if pyTruthy c = false then .ok none
      else
        match key with
        | none => .ok (some c)
        | some k => if k = "" then .ok (some c) else walkParts (pySplitDot k) c

/-- Embedding of the navigation-and-assignment part of `set_config_value`:
walk `parts[:-1]` creating missing levels, then `current[parts[-1]] = value`.
Any non-mapping encountered while parts remain makes Python raise `TypeError`
(item assignment or string/list indexing). -/
def setParts : List String → Yaml → Yaml → Except PyErr Yaml
  | [], _, _ => .error .typeError
  | p :: rest, c, v =>
      match c with
      | .map kvs =>
          match rest with
          | [] => .ok (.map (assocSet kvs p v))
          | _ :: _ =>
              let child := match assocLookup kvs p with
                | some ch => ch
                | none => .map []
              match setParts rest child v with
              | .ok sub => .ok (.map (assocSet kvs p sub))
              | .error e => .error e
      | _ => .error .typeError

/-- The `DEFAULT_CONFIG` document of `config.py`. -/
def DEFAULT_CONFIG : Yaml :=
  .map [("embedding", .map [("provider", .str "openai"),
                            ("model", .str "text-embedding-3-small")]),
        ("reranking", .map [("method", .str "rrf")]),
        ("retrieval", .map [("max_context_length", .int 4000),
                            ("chunk_size", .int 1000),
                            ("chunk_overlap", .int 200)]),
        ("api_keys", .map [("openai", .str "${OPENAI_API_KEY}"),
                           ("anthropic", .str "${ANTHROPIC_API_KEY}")])]

/-- Embedding of `set_config_value(key, value)` from `config.py`:
`config = load_config() or DEFAULT_CONFIG`, mutate along the dotted path,
write the whole document back, `return True`.  The result carries the
persisted document together with the returned `True`. -/
def set_config_value (store : Option Yaml) (key : String) (v : Yaml) :
    Except PyErr (Yaml × Bool) :=
  let config := match store with
    | some c => if pyTruthy c then c else DEFAULT_CONFIG
    | none => DEFAULT_CONFIG
  match setParts (pySplitDot key) config v with
  | .ok c' => .ok (c', true)
  | .error e => .error e

/-- Pure dotted-path resolution through nested mappings only: `some v` when
the whole path resolves, `none` when some level lacks the key or is not a
mapping. -/
def resolvePath : Yaml → List String → Option Yaml
  | v, [] => some v
  | .map kvs, p :: ps =>
      match assocLookup kvs p with
      | some v => resolvePath v ps
      | none => none
  | _, _ :: _ => none

/-- Every value met while path components remain is a mapping (a missing key
stops the walk harmlessly).  This is the region where the Python dotted-key
walk cannot raise. -/
def safeDescent : Yaml → List String → Bool
  | _, [] => true
  | .map kvs, p :: ps =>
      match assocLookup kvs p with
      | some v => safeDescent v ps
      | none => true
  | _, _ :: _ => false

/-- Two dotted paths diverge: they differ at some component both still have. -/
def diverges : List String → List String → Bool
  | p :: ps, q :: qs => if p = q then diverges ps qs else true
  | _, _ => false

/-- A record of the `context` table (`db.py`, `_ensure_tables`).  Embedding
entries are IEEE floats in Python; no modelled operation computes with them,
so they are represented by rationals. -/
structure Chunk where
  text : String
  embedding : List ℚ
  source_id : String
  source_type : String
  source_path : String
  chunk_id : Int
  last_updated : String
  raw_chunk : String

/-- A record of the `sources` table.  `metadata` is the JSON string at rest;
the convenience dict-to-JSON conversion in `add_source` and the tolerant
decode in `get_source` only re-encode this field and are not modelled, as no
claim concerns the metadata value. -/
structure SourceRec where
  source_id : String
  source_type : String
  source_path : String
  last_updated : String
  content_hash : String
  metadata : String

/-- The two LanceDB tables of `DotLoreDB`, in insertion order. -/
structure DB where
  context : List Chunk
  sources : List SourceRec

/-- Embedding of `DotLoreDB.add_chunks`: `context_table.add(chunks)`. -/
def add_chunks (db : DB) (chunks : List Chunk) : DB :=
  { db with context := db.context ++ chunks }

/-- Embedding of `DotLoreDB.add_source`: search for rows with the same
`source_id`; if any exist, delete them all; then append the new record. -/
def add_source (db : DB) (s : SourceRec) : DB :=
  let existing := db.sources.filter fun r => r.source_id == s.source_id
  let afterDelete :=
    if existing.length > 0 then db.sources.filter fun r => !(r.source_id == s.source_id)
    else db.sources
  { db with sources := afterDelete ++ [s] }

/-- Embedding of `DotLoreDB.remove_source`: delete matching rows from the
`context` table, then from the `sources` table. -/
def remove_source (db : DB) (sid : String) : DB :=
  { context := db.context.filter fun c => !(c.source_id == sid),
    sources := db.sources.filter fun r => !(r.source_id == sid) }

/-- Embedding of `DotLoreDB.list_sources`: all rows of the `sources` table. -/
def list_sources (db : DB) : List SourceRec :=
  db.sources

/-- Embedding of `DotLoreDB.get_source`: the first row whose `source_id`
matches, or `None` when the filtered result is empty. -/
def get_source (db : DB) (sid : String) : Option SourceRec :=
  match db.sources.filter (fun r => r.source_id == sid) with
  | [] => none
  | r :: _ => some r

/-- Order-preserving deduplication, as pandas `Series.unique` (first
occurrence kept). -/
def uniqueKeepFirst : List String → List String
  | [] => []
  | x :: xs => x :: uniqueKeepFirst (xs.filter fun y => !(y == x))
termination_by l => l.length
decreasing_by
  simp only [List.length_cons]
  exact Nat.lt_succ_of_le (List.length_filter_le _ _)

/-- Result shape of `DotLoreDB.get_db_stats`. -/
structure DBStats where
  chunks_count : Nat
  sources_count : Nat
  source_types : List String

/-- Embedding of `DotLoreDB.get_db_stats`: row counts of the two tables and
the distinct source types. -/
def get_db_stats (db : DB) : DBStats :=
  { chunks_count := db.context.length,
    sources_count := db.sources.length,
    source_types := uniqueKeepFirst (db.sources.map fun r => r.source_type) }

/-- The value passed as the `query` keyword of `query.hybrid(...)`.  The code
only ever passes the embedding (`query=query_embedding`); the `text`
constructor exists to make "embedding, not text" expressible. -/
inductive HybridQueryVal (α : Type) where
  | emb (e : α)
  | text (s : String)
  deriving DecidableEq

/-- The storage backend (LanceDB) as seen by `query_context`: the ordered
candidate list produced by vector search for a given embedding, whether the
query builder has a `hybrid` attribute, and the externally computed result of
a `hybrid(...)` call given its arguments and the current candidates. -/
structure Backend (α : Type) where
  vectorSearch : α → List Chunk
  hybridSupported : Bool
  hybridSearch : HybridQueryVal α → String → Yaml → List Chunk → List Chunk

/-- The observable outcome of one `query_context` call: the arguments passed
to `query.hybrid` (query value, `text_column_name`, `fusion_method`), when it
was called, and the returned rows. -/
structure QueryOutcome (α : Type) where
  hybridArgs : Option (HybridQueryVal α × String × Yaml)
  rows : List Chunk

/-- Embedding of `config.get("reranking", \x7b\x7d).get("method", "rrf")` in
`query_context`.  A non-dict at either level raises `AttributeError`; an
absent `method` key yields the default string `"rrf"`. -/
def selectRerankingMethod : Yaml → Except PyErr Yaml
  | .map kvs =>
      match assocLookup kvs "reranking" with
      | some (.map rkvs) =>
          .ok (match assocLookup rkvs "method" with
               | some m => m
               | none => .str "rrf")
      | some _ => .error .attributeError
      | none => .ok (.str "rrf")
  | _ => .error .attributeError

/-- Embedding of `DotLoreDB.query_context`: vector search, optional `where`
filter (modelled as a structured predicate), then — only when the backend
has `hybrid` — a config read (`get_config_value()`, whose `None` result makes
`None.get` raise `AttributeError`), method selection, and the hybrid call
with `query=query_embedding`; finally `.limit(limit)`. -/
def query_context {α : Type} (B : Backend α) (store : Option Yaml)
    (query_embedding : α) (limit : Nat) (whereClause : Option (Chunk → Bool)) :
    Except PyErr (QueryOutcome α) :=
  let ranked := B.vectorSearch query_embedding
  let filtered := match whereClause with
    | some p => ranked.filter p
    | none => ranked
  if B.hybridSupported then
    match get_config_value store none with
    | .error e => .error e
    | .ok none => .error .attributeError
    | .ok (some cfg) =>
        match selectRerankingMethod cfg with
        | .error e => .error e
        | .ok method =>
            let hq : HybridQueryVal α := .emb query_embedding
            let rows := B.hybridSearch hq "text" method filtered
            .ok { hybridArgs := some (hq, "text", method), rows := rows.take limit }
  else
    .ok { hybridArgs := none, rows := filtered.take limit }

/-- Modelled from the spec: reciprocal rank fusion scoring (spec §4.5).  The
fusion itself runs inside LanceDB (`fusion_method="rrf"`), whose code is not
part of this repository; the score of a candidate is the sum over available
rankings of `1 / (rank_constant + rank)`, with absence contributing 0. -/
def rrfScore (rankConstant : ℚ) (ranks : List (Option ℕ)) : ℚ :=
  (ranks.map fun r => match r with
    | some n => 1 / (rankConstant + (n : ℚ))
    | none => 0).sum

/-- A fusion candidate: its 1-based position in the vector ranking (every
candidate comes from the vector search) and its optional 1-based position in
the keyword ranking. -/
structure Candidate where
  vectorRank : ℕ
  keywordRank : Option ℕ
  deriving DecidableEq

/-- Modelled from the spec: a candidate's fused RRF score. -/
def candScore (rankConstant : ℚ) (c : Candidate) : ℚ :=
  rrfScore rankConstant [some c.vectorRank, c.keywordRank]

/-- Modelled from the spec: the fused output order — descending fused score,
ties broken by the primary (vector) ranking. -/
def rrfLE (rankConstant : ℚ) (a b : Candidate) : Prop :=
  candScore rankConstant b < candScore rankConstant a ∨
    (candScore rankConstant a = candScore rankConstant b ∧ a.vectorRank ≤ b.vectorRank)

instance (k : ℚ) (a b : Candidate) : Decidable (rrfLE k a b) := by
  unfold rrfLE; infer_instance

/-- Strictly ranked above: earlier in the fused order and not tied. -/
def rrfAbove (rankConstant : ℚ) (a b : Candidate) : Prop :=
  rrfLE rankConstant a b ∧ ¬ rrfLE rankConstant b a

instance (k : ℚ) (a b : Candidate) : Decidable (rrfAbove k a b) := by
  unfold rrfAbove; infer_instance

/-- A chunk used by concrete witness instantiations. -/
def sampleChunk : Chunk :=
  { text := "t", embedding := [], source_id := "s1", source_type := "file",
    source_path := "/tmp/f", chunk_id := 1, last_updated := "2024-01-01",
    raw_chunk := "rt" }

/-- A backend without keyword capability, used by concrete witnesses. -/
def vectorOnlyBackend : Backend (List ℚ) :=
  { vectorSearch := fun _ => [sampleChunk], hybridSupported := false,
    hybridSearch := fun _ _ _ rows => rows }

/-- A backend with keyword capability, used by concrete witnesses. -/
def hybridBackend : Backend (List ℚ) :=
  { vectorSearch := fun _ => [sampleChunk], hybridSupported := true,
    hybridSearch := fun _ _ _ rows => rows }

/-- The document persisted by `set_config_value(None, "embedding.dims", 3)`
starting from the defaults: `DEFAULT_CONFIG` with the one key added. -/
def defaultWithDims : Yaml :=
  .map [("embedding", .map [("provider", .str "openai"),
                            ("model", .str "text-embedding-3-small"),
                            ("dims", .int 3)]),
        ("reranking", .map [("method", .str "rrf")]),
        ("retrieval", .map [("max_context_length", .int 4000),
                            ("chunk_size", .int 1000),
                            ("chunk_overlap", .int 200)]),
        ("api_keys", .map [("openai", .str "${OPENAI_API_KEY}"),
                           ("anthropic", .str "${ANTHROPIC_API_KEY}")])]

/- ------------------------------------------------------------------ -/
/- Helper lemmas.                                                      -/
/- ------------------------------------------------------------------ -/

theorem assocLookup_assocSet_self (kvs : List (String × Yaml)) (k : String) (v : Yaml) :
    assocLookup (assocSet kvs k v) k = some v := by
  induction kvs with
  | nil => simp [assocSet, assocLookup]
  | cons hd tl ih =>
      obtain ⟨k', v'⟩ := hd
      by_cases h : k' = k
      · simp [assocSet, assocLookup, h]
      · simp [assocSet, assocLookup, h, ih]

theorem assocLookup_assocSet_ne (kvs : List (String × Yaml)) (k j : String) (v : Yaml)
    (h : j ≠ k) : assocLookup (assocSet kvs k v) j = assocLookup kvs j := by
  induction kvs with
  | nil =>
      simp only [assocSet, assocLookup]
      rw [if_neg fun he => h he.symm]
  | cons hd tl ih =>
      obtain ⟨k', v'⟩ := hd
      simp only [assocSet]
      by_cases hk : k' = k
      · subst hk
        rw [if_pos rfl]
        simp only [assocLookup]
        rw [if_neg fun he => h he.symm, if_neg fun he => h he.symm]
      · rw [if_neg hk]
        simp only [assocLookup]
        by_cases hj : k' = j
        · rw [if_pos hj, if_pos hj]
        · rw [if_neg hj, if_neg hj, ih]

theorem setParts_ok_truthy (ps : List String) (c v c' : Yaml)
    (h : setParts ps c v = .ok c') : pyTruthy c' = true := by
  cases ps with
  | nil => simp [setParts] at h
  | cons p rest =>
      cases c with
      | map kvs =>
          cases rest with
          | nil =>
              simp only [setParts, Except.ok.injEq] at h
              subst h
              cases kvs <;> simp [pyTruthy, assocSet] <;> split <;> simp
          | cons r rs =>
              simp only [setParts] at h
              split at h
              · cases h
                cases kvs <;> simp [pyTruthy, assocSet] <;> split <;> simp
              · cases h
      | null => simp [setParts] at h
      | bool b => simp [setParts] at h
      | int n => simp [setParts] at h
      | str s => simp [setParts] at h
      | list xs => simp [setParts] at h

theorem setParts_roundtrip (ps : List String) :
    ∀ (c v c' : Yaml), setParts ps c v = .ok c' → walkParts ps c' = .ok (some v) := by
  induction ps with
  | nil => intro c v c' h; simp [setParts] at h
  | cons p rest ih =>
      intro c v c' h
      cases c with
      | map kvs =>
          cases rest with
          | nil =>
              simp only [setParts, Except.ok.injEq] at h
              subst h
              simp [walkParts, assocLookup_assocSet_self]
          | cons r rs =>
              simp only [setParts] at h
              split at h
              case _ sub hsub =>
                cases h
                simp only [walkParts, assocLookup_assocSet_self]
                exact ih _ _ _ hsub
              case _ e he => cases h
      | null => simp [setParts] at h
      | bool b => simp [setParts] at h
      | int n => simp [setParts] at h
      | str s => simp [setParts] at h
      | list xs => simp [setParts] at h

theorem setParts_preserves (ps : List String) :
    ∀ (qs : List String) (c v c' : Yaml), diverges ps qs = true →
      setParts ps c v = .ok c' → walkParts qs c' = walkParts qs c := by
  induction ps with
  | nil => intro qs c v c' hd h; simp [setParts] at h
  | cons p rest ih =>
      intro qs c v c' hd h
      cases qs with
      | nil => simp [diverges] at hd
      | cons q qs' =>
          cases c with
          | map kvs =>
              by_cases hpq : p = q
              · subst hpq
                rw [diverges, if_pos rfl] at hd
                cases rest with
                | nil => simp [diverges] at hd
                | cons r rs =>
                    simp only [setParts] at h
                    split at h
                    case _ sub hsub =>
                      cases h
                      have hqs : ∃ q2 qs2, qs' = q2 :: qs2 := by
                        cases qs' with
                        | nil => simp [diverges] at hd
                        | cons q2 qs2 => exact ⟨q2, qs2, rfl⟩
                      simp only [walkParts, assocLookup_assocSet_self]
                      cases hl : assocLookup kvs p with
                      | some ch =>
                          have := ih qs' (match assocLookup kvs p with
                            | some ch => ch | none => .map []) v sub hd hsub
                          rw [hl] at this
                          exact this
                      | none =>
                          have := ih qs' (match assocLookup kvs p with
                            | some ch => ch | none => .map []) v sub hd hsub
                          rw [hl] at this
                          rw [this]
                          obtain ⟨q2, qs2, hq⟩ := hqs
                          subst hq
                          simp [walkParts, assocLookup]
                    case _ e he => cases h
              · have hdq : diverges (p :: rest) (q :: qs') = true := hd
                cases rest with
                | nil =>
                    simp only [setParts, Except.ok.injEq] at h
                    subst h
                    simp only [walkParts,
                      assocLookup_assocSet_ne kvs p q v fun he => hpq he.symm]
                | cons r rs =>
                    simp only [setParts] at h
                    split at h
                    case _ sub hsub =>
                      cases h
                      simp only [walkParts,
                        assocLookup_assocSet_ne kvs p q sub fun he => hpq he.symm]
                    case _ e he => cases h
          | null => simp [setParts] at h
          | bool b => simp [setParts] at h
          | int n => simp [setParts] at h
          | str s => simp [setParts] at h
          | list xs => simp [setParts] at h

theorem walkParts_of_safeDescent (ps : List String) :
    ∀ c : Yaml, safeDescent c ps = true → walkParts ps c = .ok (resolvePath c ps) := by
  induction ps with
  | nil => intro c _; simp [walkParts, resolvePath]
  | cons p rest ih =>
      intro c hs
      cases c with
      | map kvs =>
          simp only [safeDescent] at hs
          simp only [walkParts, resolvePath]
          cases hl : assocLookup kvs p with
          | some v =>
              rw [hl] at hs
              exact ih v hs
          | none => simp
      | null => simp [safeDescent] at hs
      | bool b => simp [safeDescent] at hs
      | int n => simp [safeDescent] at hs
      | str s => simp [safeDescent] at hs
      | list xs => simp [safeDescent] at hs

theorem filter_not_then_filter {α : Type} (p : α → Bool) (l : List α) :
    (l.filter fun a => !(p a)).filter p = [] := by
  induction l with
  | nil => rfl
  | cons x xs ih =>
      by_cases h : p x = true
      · simp [List.filter, h, ih]
      · simp only [Bool.not_eq_true] at h
        simp [List.filter, h, ih]

theorem length_filter_not_add {α : Type} (p : α → Bool) (l : List α) :
    (l.filter fun a => !(p a)).length + (l.filter p).length = l.length := by
  induction l with
  | nil => rfl
  | cons x xs ih =>
      by_cases h : p x = true
      · simp only [List.filter, h, Bool.not_true, List.length_cons]
        omega
      · simp only [Bool.not_eq_true] at h
        simp only [List.filter, h, Bool.not_false, List.length_cons]
        omega

/- ------------------------------------------------------------------ -/
/- Claim theorems.                                                     -/
/- ------------------------------------------------------------------ -/

/-- C3, counterexample.  The claim "for every dotted key path k and value v,
set_config_value(k, v) followed by get_config_value(k) returns v" is false as
stated: on the existing configuration `{"a": 5}` with key `"a.b"`, the set
raises `TypeError` (item assignment on an int), so the round trip fails. -/
theorem set_config_on_scalar_level_raises :
    set_config_value (some (.map [("a", .int 5)])) "a.b" (.str "v") =
      .error .typeError :=
  rfl

/-- C3, amended.  For every nonempty dotted key path `k` and value `v`,
whenever `set_config_value(k, v)` succeeds (it raises `TypeError` exactly
when an existing intermediate path component is a non-mapping), a subsequent
`get_config_value(k)` on the persisted document returns `v`, including when
the path created intermediate mapping levels that did not previously
exist. -/
theorem set_then_get_roundtrip (store : Option Yaml) (k : String) (v c' : Yaml)
    (hk : k ≠ "") (hset : set_config_value store k v = .ok (c', true)) :
    get_config_value (some c') (some k) = .ok (some v) := by
  unfold set_config_value at hset
  dsimp only at hset
  revert hset
  cases hsp : setParts (pySplitDot k)
      (match store with
       | some c => if pyTruthy c then c else DEFAULT_CONFIG
       | none => DEFAULT_CONFIG) v with
  | ok c'' =>
      intro hset
      simp only [Except.ok.injEq, Prod.mk.injEq] at hset
      obtain ⟨rfl, -⟩ := hset
      unfold get_config_value
      dsimp only
      rw [setParts_ok_truthy _ _ _ _ hsp]
      simp only [Bool.true_eq_false, reduceCtorEq, if_false, if_neg hk]
      exact setParts_roundtrip _ _ _ _ hsp
  | error e =>
      intro hset
      simp only [reduceCtorEq] at hset

/-- C3, witness for the amended theorem: setting `"a.b"` to `"w"` in the
configuration `{"a": {}}` creates the intermediate level and reads back. -/
theorem set_then_get_roundtrip_witness :
    get_config_value (some (.map [("a", .map [("b", .str "w")])])) (some "a.b") =
      .ok (some (.str "w")) :=
  set_then_get_roundtrip (some (.map [("a", .map [])])) "a.b" (.str "w")
    (.map [("a", .map [("b", .str "w")])]) (by decide) rfl

/-- C4, counterexample.  The claim that a read on an absent configuration is
distinguishable from a read on an existing configuration lacking the key is
false: both return Python `None` — `get_config_value` on no document and on
the document `{"x": 1}` with key `"y"` produce the identical result. -/
theorem get_config_absent_vs_missing_same :
    get_config_value none (some "y") = .ok none ∧
    get_config_value (some (.map [("x", .int 1)])) (some "y") = .ok none ∧
    get_config_value none (some "y") =
      get_config_value (some (.map [("x", .int 1)])) (some "y") :=
  ⟨rfl, rfl, rfl⟩

/-- C4, amended.  Configuration reads report "no configuration document"
with the same `None` value used for "key not present in an existing
document": `get_config_value` on an absent store returns `None` for every
key (and for the whole-document read), exactly the result produced for a
missing key of an existing document, so callers cannot distinguish the two
conditions from the return value. -/
theorem get_config_reports_none_for_both_conditions :
    (∀ k : String, get_config_value none (some k) = .ok none) ∧
    get_config_value none none = .ok none ∧
    get_config_value (some (.map [("x", .int 1)])) (some "y") = .ok none :=
  ⟨fun _ => rfl, rfl, rfl⟩

/-- C6, counterexample.  The claim that `get_config_value` never raises is
false: when an intermediate path component resolves to a scalar, the Python
walk raises `TypeError` — on `{"a": "bc"}` with key `"a.b"` (string
membership succeeds, string indexing by a string raises) and on `{"a": 5}`
with key `"a.b"` (membership test on an int raises). -/
theorem get_config_value_raises_on_scalar :
    get_config_value (some (.map [("a", .str "bc")])) (some "a.b") =
      .error .typeError ∧
    get_config_value (some (.map [("a", .int 5)])) (some "a.b") =
      .error .typeError :=
  ⟨rfl, rfl⟩

/-- C6, amended.  As long as every value met while path components remain is
a mapping (a missing key at a mapping level stops the walk harmlessly),
`get_config_value` never raises: it returns exactly the pure path
resolution — the value when the path resolves, `None` when it cannot be
fully resolved.  When an intermediate component resolves to a scalar the
walk can instead raise `TypeError`. -/
theorem get_config_value_safe_on_mapping_path (c : Yaml) (k : String)
    (ht : pyTruthy c = true) (hk : k ≠ "")
    (hs : safeDescent c (pySplitDot k) = true) :
    get_config_value (some c) (some k) = .ok (resolvePath c (pySplitDot k)) := by
  unfold get_config_value
  dsimp only
  rw [ht]
  simp only [Bool.true_eq_false, reduceCtorEq, if_false, if_neg hk]
  exact walkParts_of_safeDescent _ _ hs

/-- C6, witness for the amended theorem: on `{"a": {"b": 1}}` the key
`"a.c"` fails at a mapping level and reads as absent without an error. -/
theorem get_config_value_safe_on_mapping_path_witness :
    get_config_value (some (.map [("a", .map [("b", .int 1)])])) (some "a.c") =
      .ok none :=
  get_config_value_safe_on_mapping_path (.map [("a", .map [("b", .int 1)])])
    "a.c" rfl (by decide) rfl

/-- C10, counterexample.  The claim that `set_config_value(k, v)` on an
absent configuration does not fail is false as stated for every key: with no
configuration file, setting `"embedding.model.x"` walks into the default
scalar `embedding.model = "text-embedding-3-small"` and raises
`TypeError`. -/
theorem set_config_under_default_scalar_raises :
    set_config_value none "embedding.model.x" (.str "z") = .error .typeError :=
  rfl

/-- C10, amended.  When no configuration file exists (or it loads falsy),
`set_config_value(k, v)` starts from the built-in `DEFAULT_CONFIG`; for
every nonempty key whose navigation does not run into a default scalar (set
succeeds), it returns `True` and persists the entire resulting document: a
subsequent read of `k` yields `v` and every dotted path diverging from `k`
reads exactly as in the default document (all default keys are kept). -/
theorem set_config_absent_starts_from_defaults (store : Option Yaml)
    (k : String) (v c' : Yaml)
    (habs : store = none ∨ ∃ c₀, store = some c₀ ∧ pyTruthy c₀ = false)
    (hk : k ≠ "")
    (hset : setParts (pySplitDot k) DEFAULT_CONFIG v = .ok c') :
    set_config_value store k v = .ok (c', true) ∧
    get_config_value (some c') (some k) = .ok (some v) ∧
    ∀ qs, diverges (pySplitDot k) qs = true →
      walkParts qs c' = walkParts qs DEFAULT_CONFIG := by
  have hval : set_config_value store k v = .ok (c', true) := by
    rcases habs with rfl | ⟨c₀, rfl, hfalsy⟩
    · simp [set_config_value, hset]
    · simp [set_config_value, hfalsy, hset]
  refine ⟨hval, ?_, ?_⟩
  · unfold get_config_value
    dsimp only
    rw [setParts_ok_truthy _ _ _ _ hset]
    simp only [Bool.true_eq_false, reduceCtorEq, if_false, if_neg hk]
    exact setParts_roundtrip _ _ _ _ hset
  · intro qs hdiv
    exact setParts_preserves _ _ _ _ _ hdiv hset

/-- C10, witness for the amended theorem: with no configuration file,
setting `"embedding.dims"` to 3 persists the whole default document plus the
one key, returns `True`, reads back, and leaves the divergent default path
`reranking.method` untouched. -/
theorem set_config_absent_starts_from_defaults_witness :
    set_config_value none "embedding.dims" (.int 3) = .ok (defaultWithDims, true) ∧
    get_config_value (some defaultWithDims) (some "embedding.dims") =
      .ok (some (.int 3)) ∧
    walkParts ["reranking", "method"] defaultWithDims =
      walkParts ["reranking", "method"] DEFAULT_CONFIG :=
  ⟨(set_config_absent_starts_from_defaults none "embedding.dims" (.int 3)
      defaultWithDims (Or.inl rfl) (by decide) rfl).1,
   (set_config_absent_starts_from_defaults none "embedding.dims" (.int 3)
      defaultWithDims (Or.inl rfl) (by decide) rfl).2.1,
   (set_config_absent_starts_from_defaults none "embedding.dims" (.int 3)
      defaultWithDims (Or.inl rfl) (by decide) rfl).2.2
     ["reranking", "method"] rfl⟩

/-- C1.  For every store state, source id `S` and batch of chunks all owned
by `S`, `add_chunks` of the batch followed by `remove_source S` leaves no
chunk with `source_id = S` in the store, makes `get_source S` report
not-found, and the chunk count in `get_db_stats` counts exactly the chunks
of other sources that were already present — all of `S`'s chunks, old and
new, are excluded; no orphan chunk is observable. -/
theorem remove_source_cascades (db : DB) (S : String) (cs : List Chunk)
    (h : ∀ c ∈ cs, c.source_id = S) :
    (∀ c ∈ (remove_source (add_chunks db cs) S).context, c.source_id ≠ S) ∧
    get_source (remove_source (add_chunks db cs) S) S = none ∧
    (get_db_stats (remove_source (add_chunks db cs) S)).chunks_count =
      (db.context.filter fun c => !(c.source_id == S)).length := by
  have hcs : cs.filter (fun c => !(c.source_id == S)) = [] := by
    rw [List.filter_eq_nil]
    intro c hc
    simp [h c hc]
  have hctx : (remove_source (add_chunks db cs) S).context =
      db.context.filter fun c => !(c.source_id == S) := by
    simp [remove_source, add_chunks, List.filter_append, hcs]
  refine ⟨?_, ?_, ?_⟩
  · intro c hc
    rw [hctx] at hc
    have := (List.mem_filter.mp hc).2
    simp only [Bool.not_eq_true', beq_eq_false_iff_ne, ne_eq] at this
    exact this
  · unfold get_source remove_source
    rw [filter_not_then_filter]
  · simp [get_db_stats, hctx]

/-- C1, witness: one chunk of source `s1` appended to an empty store, then
`remove_source "s1"`: the source reads as not-found and the chunk count is
zero. -/
theorem remove_source_cascades_witness :
    get_source (remove_source (add_chunks ⟨[], []⟩ [sampleChunk]) "s1") "s1" = none ∧
    (get_db_stats (remove_source (add_chunks ⟨[], []⟩ [sampleChunk]) "s1")).chunks_count = 0 :=
  ⟨(remove_source_cascades ⟨[], []⟩ "s1" [sampleChunk] (by decide)).2.1,
   (remove_source_cascades ⟨[], []⟩ "s1" [sampleChunk] (by decide)).2.2⟩

/-- C2.  For every store state and source record `s`, after `add_source s`
exactly one record with `s.source_id` is live (an existing record is
replaced, never duplicated), and adding the identical record a second time
leaves the `list_sources` length unchanged. -/
theorem add_source_upsert_unique (db : DB) (s : SourceRec) :
    ((list_sources (add_source db s)).filter
        fun r => r.source_id == s.source_id).length = 1 ∧
    (list_sources (add_source (add_source db s) s)).length =
      (list_sources (add_source db s)).length := by
  have key : ∀ t : DB, (add_source t s).sources.filter
      (fun r => r.source_id == s.source_id) = [s] := by
    intro t
    unfold add_source
    dsimp only
    by_cases hex : (t.sources.filter fun r => r.source_id == s.source_id).length > 0
    · rw [if_pos hex, List.filter_append, filter_not_then_filter]
      simp [List.filter]
    · rw [if_neg hex]
      have hnil : t.sources.filter (fun r => r.source_id == s.source_id) = [] :=
        List.length_eq_zero.mp (Nat.eq_zero_of_not_pos hex)
      rw [List.filter_append, hnil]
      simp [List.filter]
  constructor
  · rw [list_sources, key db, List.length_singleton]
  · have hone : ((add_source db s).sources.filter
        fun r => r.source_id == s.source_id).length = 1 := by
      rw [key db, List.length_singleton]
    unfold list_sources
    conv_lhs => rw [add_source]
    dsimp only
    rw [if_pos (by rw [hone]; exact Nat.one_pos), List.length_append,
      List.length_singleton]
    have hsum := length_filter_not_add (fun r => r.source_id == s.source_id)
      (add_source db s).sources
    rw [hone] at hsum
    omega

/-- C5, counterexample.  The claim that an absent `reranking.method` is not
silently replaced and that unknown methods fail closed is false on the code:
with the key absent, `query_context` silently uses `"rrf"`, and with the
unknown method `"xyz"` it succeeds, forwarding the string to the backend
unvalidated instead of rejecting the query configuration. -/
theorem query_context_silently_defaults :
    query_context hybridBackend (some (.map [("reranking", .map [])]))
        ([] : List ℚ) 10 none =
      .ok ⟨some (.emb [], "text", .str "rrf"), [sampleChunk]⟩ ∧
    query_context hybridBackend
        (some (.map [("reranking", .map [("method", .str "xyz")])]))
        ([] : List ℚ) 10 none =
      .ok ⟨some (.emb [], "text", .str "xyz"), [sampleChunk]⟩ :=
  ⟨rfl, rfl⟩

/-- C5, amended.  `query_context` performs no validation of
`reranking.method`: whatever string is configured is forwarded to the
backend's hybrid call and the query succeeds at the engine level, and when
the key is absent the engine silently substitutes the default `"rrf"`.
Rejection of an unknown method, if any, can only come from the backend. -/
theorem query_context_forwards_method {α : Type} (B : Backend α) (e : α)
    (lim : Nat) (m : String) (hsup : B.hybridSupported = true) :
    query_context B (some (.map [("reranking", .map [("method", .str m)])]))
        e lim none =
      .ok ⟨some (.emb e, "text", .str m),
           (B.hybridSearch (.emb e) "text" (.str m) (B.vectorSearch e)).take lim⟩ ∧
    query_context B (some (.map [("reranking", .map [])])) e lim none =
      .ok ⟨some (.emb e, "text", .str "rrf"),
           (B.hybridSearch (.emb e) "text" (.str "rrf") (B.vectorSearch e)).take lim⟩ := by
  obtain ⟨vs, hs, hb⟩ := B
  cases hsup
  exact ⟨rfl, rfl⟩

/-- C5, witness for the amended theorem: the unknown method `"foo"` is
forwarded and the absent method silently becomes `"rrf"`. -/
theorem query_context_forwards_method_witness :
    query_context hybridBackend
        (some (.map [("reranking", .map [("method", .str "foo")])]))
        ([] : List ℚ) 3 none =
      .ok ⟨some (.emb [], "text", .str "foo"), [sampleChunk]⟩ ∧
    query_context hybridBackend (some (.map [("reranking", .map [])]))
        ([] : List ℚ) 3 none =
      .ok ⟨some (.emb [], "text", .str "rrf"), [sampleChunk]⟩ :=
  query_context_forwards_method hybridBackend [] 3 "foo" rfl

/-- C8.  Contrary to the claim, `query_context` has no `query_text`
parameter, and whenever the backend supports keyword scoring the value
passed as the `query` argument of the hybrid (BM25) call is the query
embedding itself, never a text string. -/
theorem query_context_keyword_query_is_embedding {α : Type} (B : Backend α)
    (store : Option Yaml) (e : α) (lim : Nat) (w : Option (Chunk → Bool))
    (r : QueryOutcome α) (hsup : B.hybridSupported = true)
    (hq : query_context B store e lim w = .ok r) :
    r.hybridArgs.map (fun t => (t.fst, t.snd.fst)) =
      some (HybridQueryVal.emb e, "text") := by
  obtain ⟨vs, hs, hb⟩ := B
  cases hsup
  simp only [query_context, reduceIte] at hq
  revert hq
  cases get_config_value store none with
  | error err => intro hq; simp at hq
  | ok oc =>
      cases oc with
      | none => intro hq; simp at hq
      | some cfg =>
          intro hq
          dsimp only at hq
          cases hms : selectRerankingMethod cfg with
          | error err => rw [hms] at hq; simp at hq
          | ok m =>
              rw [hms] at hq
              simp only [Except.ok.injEq] at hq
              subst hq
              rfl

/-- C8, witness: a concrete hybrid-capable call whose recorded hybrid query
argument is the embedding. -/
theorem query_context_keyword_query_is_embedding_witness :
    (({ hybridArgs := some (.emb [], "text", .str "rrf"),
        rows := [sampleChunk] } : QueryOutcome (List ℚ)).hybridArgs.map
      fun t => (t.fst, t.snd.fst)) = some (HybridQueryVal.emb [], "text") :=
  query_context_keyword_query_is_embedding hybridBackend (some DEFAULT_CONFIG)
    [] 2 none _ rfl rfl

/-- C9.  When the backend does not support keyword ranking, `query_context`
never errors for that reason and returns exactly the vector-similarity
ranking (after the optional structured filter) truncated to `limit`, with
result length at most `limit`. -/
theorem query_context_vector_fallback {α : Type} (B : Backend α)
    (store : Option Yaml) (e : α) (lim : Nat) (w : Option (Chunk → Bool))
    (hsup : B.hybridSupported = false) :
    query_context B store e lim w =
      .ok ⟨none, (match w with
                  | some p => (B.vectorSearch e).filter p
                  | none => B.vectorSearch e).take lim⟩ ∧
    ∀ r, query_context B store e lim w = .ok r → r.rows.length ≤ lim := by
  obtain ⟨vs, hs, hb⟩ := B
  cases hsup
  refine ⟨rfl, ?_⟩
  intro r hr
  simp only [query_context, Bool.false_eq_true, if_false, Except.ok.injEq] at hr
  subst hr
  simpa using List.length_take_le lim _

/-- C9, witness: a backend without keyword capability returns the pure
vector ranking truncated to the limit. -/
theorem query_context_vector_fallback_witness :
    query_context vectorOnlyBackend none ([] : List ℚ) 1 none =
      .ok ⟨none, [sampleChunk]⟩ ∧
    (⟨none, [sampleChunk]⟩ : QueryOutcome (List ℚ)).rows.length ≤ 1 :=
  ⟨(query_context_vector_fallback vectorOnlyBackend none [] 1 none rfl).1,
   (query_context_vector_fallback vectorOnlyBackend none [] 1 none rfl).2
     ⟨none, [sampleChunk]⟩ rfl⟩

/-- C7.  Reciprocal rank fusion with `rank_constant = 60` (modelled from the
spec: the fusion runs inside the storage backend) scores each candidate as
the sum over available rankings of `1/(60 + rank)` with absence contributing
0; candidate A at vector-rank 1 / keyword-rank 3 scores `1/61 + 1/63`,
candidate B at vector-rank 2 / keyword-rank 1 scores `1/62 + 1/61`, so B
ranks strictly above A; and the fused order is a deterministic total
preorder (total and transitive) whose ties are broken by the vector
ranking (two candidates ranked both ways have equal score and equal vector
rank). -/
theorem rrf_fusion_determinism :
    candScore 60 ⟨1, some 3⟩ = 1/61 + 1/63 ∧
    candScore 60 ⟨2, some 1⟩ = 1/62 + 1/61 ∧
    rrfAbove 60 ⟨2, some 1⟩ ⟨1, some 3⟩ ∧
    (∀ v : ℕ, candScore 60 ⟨v, none⟩ = 1 / (60 + (v : ℚ))) ∧
    (∀ a b : Candidate, rrfLE 60 a b ∨ rrfLE 60 b a) ∧
    (∀ a b c : Candidate, rrfLE 60 a b → rrfLE 60 b c → rrfLE 60 a c) ∧
    (∀ a b : Candidate, rrfLE 60 a b → rrfLE 60 b a →
      candScore 60 a = candScore 60 b ∧ a.vectorRank = b.vectorRank) := by
  refine ⟨?_, ?_, ?_, ?_, ?_, ?_, ?_⟩
  · norm_num [candScore, rrfScore]
  · norm_num [candScore, rrfScore]
  · constructor
    · left; norm_num [candScore, rrfScore]
    · intro h
      rcases h with h | ⟨h, -⟩
      · norm_num [candScore, rrfScore] at h
      · norm_num [candScore, rrfScore] at h
  · intro v
    simp [candScore, rrfScore]
  · intro a b
    rcases lt_trichotomy (candScore 60 a) (candScore 60 b) with h | h | h
    · exact Or.inr (Or.inl h)
    · rcases Nat.le_total a.vectorRank b.vectorRank with hv | hv
      · exact Or.inl (Or.inr ⟨h, hv⟩)
      · exact Or.inr (Or.inr ⟨h.symm, hv⟩)
    · exact Or.inl (Or.inl h)
  · intro a b c hab hbc
    rcases hab with h1 | ⟨h1, h1'⟩ <;> rcases hbc with h2 | ⟨h2, h2'⟩
    · exact Or.inl (lt_trans h2 h1)
    · exact Or.inl (h2 ▸ h1)
    · exact Or.inl (lt_of_lt_of_eq h2 h1.symm)
    · exact Or.inr ⟨h1.trans h2, le_trans h1' h2'⟩
  · intro a b hab hba
    rcases hab with h1 | ⟨h1, h1'⟩ <;> rcases hba with h2 | ⟨h2, h2'⟩
    · exact absurd h2 (lt_asymm h1)
    · exfalso; rw [h2] at h1; exact lt_irrefl _ h1
    · exfalso; rw [h1] at h2; exact lt_irrefl _ h2
    · exact ⟨h1, Nat.le_antisymm h1' h2'⟩

/-- C7, witness: the transitivity component applied to the reflexive tie at
a concrete candidate. -/
theorem rrf_fusion_determinism_witness :
    rrfLE 60 ⟨1, none⟩ ⟨1, none⟩ :=
  rrf_fusion_determinism.2.2.2.2.2.1 ⟨1, none⟩ ⟨1, none⟩ ⟨1, none⟩
    (Or.inr ⟨rfl, le_refl 1⟩) (Or.inr ⟨rfl, le_refl 1⟩)

end DotLore
